import Mathlib

/-
  Verification of the SocialOS orchestration and memory runtime.

  Shallow embedding of the JavaScript sources:
    - memory-layer/memory-manager.js   (MemoryManager)
    - memory-layer/vector-memory.js    (VectorMemory)
    - orchestration/workflow-registry.js (WorkflowRegistry)
    - agent-runtime/agent-executor.js  (AgentExecutor)
    - agent-runtime/platform-connector-factory.js (PlatformConnectorFactory)
    - orchestration/orchestrator.js    (Orchestrator)

  JavaScript values are modeled by the inductive `JVal`; JS objects are
  association lists with unique keys (JS objects cannot hold a key twice).
  Host objects (connector instances appearing as context values) are the
  opaque constructor `JVal.hostObj`.  Mutable JS state is threaded
  explicitly; `Date.now()` and `Math.random()` are ambient inputs and are
  passed as parameters (`now`, `rand`).  Fallible code returns `Except`.
-/

/-- A JavaScript value.  `hostObj` is an opaque host object (e.g. a connector
instance) identified by a tag; such values are stored and passed around but
never inspected by the code under verification. -/
inductive JVal where
  | str : String → JVal
  | num : Int → JVal
  | bool : Bool → JVal
  | null : JVal
  | obj : List (String × JVal) → JVal
  | hostObj : String → JVal

/-- A JavaScript object: an association list with (by construction) unique
keys, in insertion order. -/
abbrev Obj := List (String × JVal)

/-- Association-list lookup; models JS property access / `Map.get`. -/
def assocGet (l : List (String × α)) (k : String) : Option α :=
  (l.find? (fun p => p.1 == k)).map (·.2)

/-- Association-list update; models JS property assignment / `Map.set`:
an existing key keeps its position and gets the new value, a new key is
appended. -/
def assocSet : List (String × α) → String → α → List (String × α)
  | [], k, v => [(k, v)]
  | (k', v') :: rest, k, v =>
      if k' == k then (k, v) :: rest else (k', v') :: assocSet rest k v

/-- JS object spread of `a` then `b` in one literal: start from `a` and
assign every property of `b` in order (later spreads override). -/
def objMerge (a b : Obj) : Obj :=
  b.foldl (fun acc p => assocSet acc p.1 p.2) a

/-- Shorthand for object property lookup. -/
def objGet (o : Obj) (k : String) : Option JVal := assocGet o k

/-- JS truthiness. -/
def jsTruthy : JVal → Bool
  | .str s => s != ""
  | .num n => n != 0
  | .bool b => b
  | .null => false
  | .obj _ => true
  | .hostObj _ => true

/-- JS `x || d` where `x` may be `undefined` (`none`). -/
def jsOr (v : Option JVal) (d : JVal) : JVal :=
  match v with
  | some x => if jsTruthy x then x else d
  | none => d

/-- JS `ToString` on the values in play (an object stringifies to
"[object Object]"). -/
def jsToString : JVal → String
  | .str s => s
  | .num n => toString n
  | .bool b => if b then "true" else "false"
  | .null => "null"
  | .obj _ => "[object Object]"
  | .hostObj _ => "[object Object]"

/-- Does the value make `+` concatenate (strings and objects do)? -/
def jsIsStringy : JVal → Bool
  | .str _ => true
  | .obj _ => true
  | .hostObj _ => true
  | _ => false

/-- Numeric coercion used by JS `+` for non-string operands.  The catch-all
is unreachable through `jsAdd` (stringy operands take the concat branch). -/
def jsToNumber : JVal → Int
  | .num n => n
  | .bool b => if b then 1 else 0
  | .null => 0
  | _ => 0

/-- JS binary `+`: string concatenation when either operand is a string or
an object, numeric addition otherwise. -/
def jsAdd (a b : JVal) : JVal :=
  if jsIsStringy a || jsIsStringy b then .str (jsToString a ++ jsToString b)
  else .num (jsToNumber a + jsToNumber b)

mutual

/-- JSON.stringify for `JVal` (string escaping elided; no claim inspects
serialized text, it only flows into vector-document page content). -/
def jsonStringify : JVal → String
  | .str s => "\x22" ++ s ++ "\x22"
  | .num n => toString n
  | .bool b => if b then "true" else "false"
  | .null => "null"
  | .hostObj _ => "\x7b\x7d"
  | .obj kvs => "\x7b" ++ jsonStringifyFields kvs ++ "\x7d"

/-- Comma-separated serialization of an object's fields. -/
def jsonStringifyFields : List (String × JVal) → String
  | [] => ""
  | (k, v) :: rest =>
      "\x22" ++ k ++ "\x22:" ++ jsonStringify v ++
        (match rest with
         | [] => ""
         | _ => "," ++ jsonStringifyFields rest)

end

/-
  ## MemoryManager (memory-layer/memory-manager.js)

  Modeled in its in-process fallback mode (`this.client` is a `Map`): the
  Redis branch talks to an external service and the fallback is the
  behavior the source itself specifies when that service is unavailable.
  The source stores `JSON.stringify(memoryItem)` and parses on retrieval;
  for the fields any claim observes the round-trip is the identity, so
  records are stored directly.  Embeddings come from the external OpenAI
  embedding service and are modeled as an opaque presence marker
  (`store` attaches one exactly when the data is a string, as the source
  does).
-/

/-- A JS error (`new Error(message)`). -/
structure JsErr where
  message : String
deriving DecidableEq

/-- A stored memory item, as built by `MemoryManager.store`. -/
structure MemoryRecord where
  key : String
  data : JVal
  metadata : Obj
  timestamp : Nat
  version : Nat
  embedding : Option Unit

structure MemoryManager where
  ns : String
  client : List (String × MemoryRecord)

/-- `_getKey`: namespaced key. -/
def MemoryManager.getKey (m : MemoryManager) (key : String) : String :=
  m.ns ++ ":" ++ key

/-- `store(key, data, metadata)`: builds the memory item (top-level
`version: 1`, embedding present iff the data is a string) and writes it
under the namespaced key; returns the item. -/
def MemoryManager.store (m : MemoryManager) (key : String) (data : JVal)
    (metadata : Obj) (now : Nat) : MemoryManager × MemoryRecord :=
  let memoryItem : MemoryRecord :=
    { key := key, data := data, metadata := metadata, timestamp := now,
      version := 1,
      embedding := match data with | .str _ => some () | _ => none }
  ({ m with client := assocSet m.client (m.getKey key) memoryItem },
    memoryItem)

/-- `retrieve(key)`: looks the namespaced key up, `null` when absent. -/
def MemoryManager.retrieve (m : MemoryManager) (key : String) :
    Option MemoryRecord :=
  assocGet m.client (m.getKey key)

/-- `update(key, data, metadata)`: creates when absent; otherwise stores
with metadata built from a spread of `existing.metadata`, a spread of the
new `metadata`, and `version: (existing.metadata.version || 1) + 1`. -/
def MemoryManager.update (m : MemoryManager) (key : String) (data : JVal)
    (metadata : Obj) (now : Nat) : MemoryManager × MemoryRecord :=
  match m.retrieve key with
  | none => m.store key data metadata now
  | some existing =>
      m.store key data
        (assocSet (objMerge existing.metadata metadata) "version"
          (jsAdd (jsOr (objGet existing.metadata "version") (.num 1))
            (.num 1)))
        now

/-- `delete(key)`: removes the namespaced key from the map. -/
def MemoryManager.delete (m : MemoryManager) (key : String) :
    MemoryManager :=
  { m with client := m.client.filter (fun p => p.1 != m.getKey key) }

/-- JS `s.startsWith(pre)`.  (Character-wise; core `String.startsWith`
does not reduce definitionally.) -/
def jsStartsWith (s pre : String) : Bool :=
  pre.data.isPrefixOf s.data

/-- `list(prefix='', limit=100)`: all stored items whose namespaced key
starts with the namespaced prefix, up to `limit`, in insertion order. -/
def MemoryManager.list (m : MemoryManager) (pre : String := "")
    (limit : Nat := 100) : List MemoryRecord :=
  let fullPrefix := m.getKey pre
  ((m.client.filter (fun p => jsStartsWith p.1 fullPrefix)).take limit).map
    (·.2)

/-
  ## VectorMemory (memory-layer/vector-memory.js)

  The HNSWLib vector store is modeled as the list of documents it holds —
  the similarity search space.  Ranking inside `similaritySearch` is done
  by the external embedding service; every result it can return is drawn
  from these documents.  Disk persistence (`save`/`load`) is external I/O;
  initialization models the fresh-creation branch (`HNSWLib.fromTexts`
  with the single initialization document).
-/

/-- A document held by the vector store. -/
structure VMDoc where
  pageContent : String
  metadata : Obj

structure VectorMemory where
  memoryManager : MemoryManager
  vectorStore : List VMDoc
  initialized : Bool

/-- `typeof data === 'string' ? data : JSON.stringify(data)`. -/
def jsToText : JVal → String
  | .str s => s
  | v => jsonStringify v

/-- `initialize()`: no-op when already initialized; otherwise creates the
fresh vector store holding the single initialization document. -/
def VectorMemory.initializeStore (vm : VectorMemory) : VectorMemory :=
  if vm.initialized then vm
  else
    { vm with
      vectorStore :=
        [{ pageContent := "Vector store initialization",
           metadata := [("source", .str "initialization")] }],
      initialized := true }

/-- `store(key, data, metadata)`: initializes if needed, stores in the
regular memory manager, then appends a document whose metadata is
`key`, a spread of `metadata`, and `timestamp`; returns the JS literal
`(key, data, metadata)`. -/
def VectorMemory.store (vm : VectorMemory) (key : String) (data : JVal)
    (metadata : Obj) (now : Nat) :
    VectorMemory × (String × JVal × Obj) :=
  let vm1 := vm.initializeStore
  let mm := (vm1.memoryManager.store key data metadata now).1
  let text := jsToText data
  let doc : VMDoc :=
    { pageContent := text,
      metadata :=
        assocSet (objMerge [("key", .str key)] metadata) "timestamp"
          (.num (Int.ofNat now)) }
  ({ vm1 with memoryManager := mm, vectorStore := vm1.vectorStore ++ [doc] },
    (key, data, metadata))

/-- `delete(key)`: deletes from the memory manager, then rebuilds the
vector store from all remaining listed memories whose key differs from the
deleted one (`HNSWLib.fromTexts texts metadatas`). -/
def VectorMemory.delete (vm : VectorMemory) (key : String) : VectorMemory :=
  let mm := vm.memoryManager.delete key
  let allMemories := mm.list
  let docs :=
    (allMemories.filter (fun memory => memory.key != key)).map
      (fun memory =>
        ({ pageContent := jsToText memory.data,
           metadata := objMerge [("key", .str memory.key)] memory.metadata }
          : VMDoc))
  { vm with memoryManager := mm, vectorStore := docs }

/-
  ## WorkflowRegistry (orchestration/workflow-registry.js)

  JS step objects are mutable and shared by reference; the model gives
  them identity through a heap: `WorkflowRegistry.heap` holds the step
  objects and a workflow's `steps` array is a list of heap indices.
  `writeStep` models the in-place mutation of one step object's fields
  (`wf.steps[i].field = v`); `setWorkflowSteps` models in-place mutation
  of one workflow's steps *array* (push/splice/index assignment), which
  after `clone` is a distinct array from the source's.
-/

/-- A workflow step object.  `condition` is the optional JS predicate
`(result, context) => ...`; the model keeps the coerced truthiness of its
return value. -/
structure Step where
  id : String
  agentId : String
  action : String
  condition : Option (JVal → Obj → Bool)
  memorize : Bool

/-- A workflow definition as stored by the registry. -/
structure Workflow where
  name : String
  steps : List Nat
  createdAt : Nat
  updatedAt : Option Nat
  clonedFrom : Option String

structure WorkflowRegistry where
  heap : List Step
  workflows : List (String × Workflow)

/-- `register(name, steps)`: fails when the name is taken, otherwise
stores the new definition. -/
def WorkflowRegistry.register (reg : WorkflowRegistry) (name : String)
    (steps : List Nat) (now : Nat) : Except JsErr WorkflowRegistry :=
  if (assocGet reg.workflows name).isSome then
    .error ⟨"Workflow " ++ name ++ " is already registered"⟩
  else
    .ok
      { reg with
        workflows :=
          assocSet reg.workflows name
            { name := name, steps := steps, createdAt := now,
              updatedAt := none, clonedFrom := none } }

/-- `get(name)`: the stored definition, `null` when absent. -/
def WorkflowRegistry.get (reg : WorkflowRegistry) (name : String) :
    Option Workflow :=
  assocGet reg.workflows name

/-- `clone(sourceName, targetName)`: fails when the source is missing or
the target exists; otherwise stores the target with a *spread copy* of the
source's steps array — a fresh array holding the same step objects
(the same heap references). -/
def WorkflowRegistry.clone (reg : WorkflowRegistry)
    (sourceName targetName : String) (now : Nat) :
    Except JsErr WorkflowRegistry :=
  match reg.get sourceName with
  | none => .error ⟨"Source workflow " ++ sourceName ++ " does not exist"⟩
  | some source =>
    if (assocGet reg.workflows targetName).isSome then
      .error ⟨"Target workflow " ++ targetName ++ " already exists"⟩
    else
      .ok
        { reg with
          workflows :=
            assocSet reg.workflows targetName
              { name := targetName, steps := source.steps,
                createdAt := now, updatedAt := none,
                clonedFrom := some sourceName } }

/-- Model of mutating a field of the step object at heap index `r`
in place (e.g. `wf.steps[i].action = v`): every workflow whose steps
array holds reference `r` sees the change. -/
def WorkflowRegistry.writeStep (reg : WorkflowRegistry) (r : Nat)
    (s : Step) : WorkflowRegistry :=
  { reg with heap := reg.heap.set r s }

/-- Model of mutating one workflow's steps *array* in place
(push/splice/index assignment replacing its contents). -/
def WorkflowRegistry.setWorkflowSteps (reg : WorkflowRegistry)
    (name : String) (steps : List Nat) : WorkflowRegistry :=
  { reg with
    workflows :=
      match assocGet reg.workflows name with
      | some w => assocSet reg.workflows name { w with steps := steps }
      | none => reg.workflows }

/-- The observable content of a workflow's steps: the `action` field of
each step object its array references. -/
def WorkflowRegistry.stepActions (reg : WorkflowRegistry) (name : String) :
    Option (List (Option String)) :=
  (reg.get name).map
    (fun w => w.steps.map (fun r => (reg.heap.get? r).map Step.action))

/-
  ## PlatformConnectorFactory (agent-runtime/platform-connector-factory.js)
-/

/-- A connector class (JS constructor function), opaque up to its name. -/
structure ConnectorClass where
  className : String
deriving DecidableEq

/-- The `ConnectorClass` argument of `registerConnector`: either a
constructor function or some non-function value (including `undefined`,
modeled as `notFun .null`). -/
inductive JsCallable where
  | notFun : JVal → JsCallable
  | fn : ConnectorClass → JsCallable

/-- A connector instance, as constructed by `create`
(`new XConnector(config)` and so on). -/
inductive ConnectorInstance where
  | xConnector : JVal → ConnectorInstance
  | linkedInConnector : JVal → ConnectorInstance
  | discordConnector : JVal → ConnectorInstance
  | genericConnector : JVal → ConnectorInstance

/-- The class name of an instance, used to tag the opaque host value a
connector contributes to an execution context. -/
def ConnectorInstance.className : ConnectorInstance → String
  | .xConnector _ => "XConnector"
  | .linkedInConnector _ => "LinkedInConnector"
  | .discordConnector _ => "DiscordConnector"
  | .genericConnector _ => "GenericConnector"

/-- JS `s.toLowerCase()` on the ASCII platform identifiers in play.
(Character-wise lowering; core `String.toLower` does not reduce
definitionally, so the map is taken over the character list.) -/
def jsToLowerCase (s : String) : String :=
  String.mk (s.data.map Char.toLower)

/-- `create(platform, config = empty object)`: switches on
`platform.toLowerCase()`; any platform other than the built-in
identifiers yields a `GenericConnector` (after a warning).  Note that
`create` reads no registry: it is a plain switch. -/
def PlatformConnectorFactory.create (platform : String)
    (config : JVal := .obj []) : ConnectorInstance :=
  match jsToLowerCase platform with
  | "x" => .xConnector config
  | "twitter" => .xConnector config
  | "linkedin" => .linkedInConnector config
  | "discord" => .discordConnector config
  | _ => .genericConnector config

/-- `registerConnector(platform, ConnectorClass)`: rejects a falsy or
non-string platform and a falsy or non-function class, then stores the
class in `PlatformConnectorFactory.connectorRegistry` under the
lower-cased platform. -/
def PlatformConnectorFactory.registerConnector
    (connectorRegistry : List (String × ConnectorClass)) (platform : JVal)
    (connectorClass : JsCallable) :
    Except JsErr (List (String × ConnectorClass)) :=
  match platform with
  | .str s =>
    if s == "" then .error ⟨"Platform must be a valid string"⟩
    else
      match connectorClass with
      | .fn c => .ok (assocSet connectorRegistry (jsToLowerCase s) c)
      | .notFun _ => .error ⟨"ConnectorClass must be a valid constructor"⟩
  | _ => .error ⟨"Platform must be a valid string"⟩

/-
  `createMultiPlatform(platforms)` returns a facade closing over a map
  `connectors` of platform → connector instance.  For the fan-out method
  the relevant shape of a connector is which of its members are callable
  and what they do; `MPConnector` models exactly that.
-/

/-- A connector as seen by the fan-out facade: its callable members
(methods), each taking the params and returning a result or throwing. -/
structure MPConnector where
  members : List (String × (JVal → Except JsErr JVal))

/-- `executeAction(action, params, targetPlatforms?)` of the facade: loops
over the targeted platforms (all connectors' keys when no targets given);
skips a platform with no connector; records an error entry when the
connector has no callable `action`; otherwise records the call's success
value or its caught error. -/
def MultiPlatform.executeAction
    (connectors : List (String × MPConnector)) (action : String)
    (params : JVal) (targetPlatforms : Option (List String)) : Obj :=
  let platforms := targetPlatforms.getD (connectors.map (·.1))
  platforms.foldl
    (fun results platform =>
      match assocGet connectors platform with
      | none => results
      | some connector =>
        match assocGet connector.members action with
        | none =>
            assocSet results platform
              (.obj [("error",
                .str ("Action " ++ action ++ " not supported on " ++
                  platform))])
        | some f =>
            match f params with
            | .ok value => assocSet results platform value
            | .error error =>
                assocSet results platform
                  (.obj [("error", .str error.message)]))
    []

/-
  ## RateLimiter and AgentExecutor (agent-runtime/agent-executor.js)
-/

/-- Modelled from the spec: the file `rate-limiter.js` required by
`agent-executor.js` is not among the provided sources.  Spec section 4.4:
the RateLimiter tracks a quota per (platform, action) supplied by the
caller, and `check(action)` either passes or fails with `RateLimited`
per the configured policy.  The policy is modeled as a per-action
decision function carried by the configuration (`agent.rateLimits`);
the suspend-until-budget branch is a real-time behavior outside the
model. -/
structure RateLimiter where
  platform : String
  check : String → Except JsErr Unit

/-- `new RateLimiter(config)` with platform and limits from the agent. -/
def mkRateLimiter (platform : String)
    (limits : String → Except JsErr Unit) : RateLimiter :=
  { platform := platform, check := limits }

/-- An agent: an id, a platform, callable action members, and the rate
limit configuration its executor's RateLimiter is built from.  A member
name absent from `actions` is not a callable member of the agent. -/
structure Agent where
  id : String
  platform : String
  actions : List (String × (Obj → Except JsErr JVal))
  rateLimits : String → Except JsErr Unit

/-- An entry of `executionHistory`.  `duration` is the difference of two
`Date.now()` readings; the model evaluates a call at one instant, so it
is 0. -/
structure ExecutionRecord where
  agentId : String
  action : String
  timestamp : Nat
  duration : Nat
  success : Bool
  result : Option JVal
  error : Option String

structure AgentExecutor where
  agent : Agent
  connector : JVal
  rateLimiter : RateLimiter
  executionHistory : List ExecutionRecord
  events : List String

/-- `new AgentExecutor(agent, connector)`: keeps the given connector when
truthy, otherwise creates one for the agent's platform; builds the rate
limiter from the agent's configuration; history starts empty. -/
def mkAgentExecutor (agent : Agent) (connector : Option JVal) :
    AgentExecutor :=
  { agent := agent,
    connector :=
      jsOr connector
        (.hostObj
          (PlatformConnectorFactory.create agent.platform).className),
    rateLimiter := mkRateLimiter agent.platform agent.rateLimits,
    executionHistory := [],
    events := [] }

/-- The outcome of `execute`: the executor's state after the call, the
agent members actually invoked — instrumentation recording each
`this.agent[action](executionContext)` call, used to state that an
action was or was not invoked — and the returned/thrown result. -/
structure ExecOut where
  executor : AgentExecutor
  invoked : List (String × String)
  result : Except JsErr JVal

/-- `execute(action, context)`:
1. throws `Action ... not implemented by agent ...` when the agent has no
   callable member `action` (before any event or history write);
2. builds the execution context by spreading the caller's context with
   `connector`, `timestamp` and `executionId`;
3. emits `beforeExecution`;
4. inside the try block, consults the rate limiter, then invokes the
   action; on success appends a `success: true` record and emits
   `afterExecution`; on any caught error appends a `success: false`
   record, emits `executionError`, and rethrows. -/
def AgentExecutor.execute (ex : AgentExecutor) (action : String)
    (context : Obj) (now : Nat) (rand : String) : ExecOut :=
  match assocGet ex.agent.actions action with
  | none =>
      { executor := ex, invoked := [],
        result := .error
          ⟨"Action " ++ action ++ " not implemented by agent " ++
            ex.agent.id⟩ }
  | some f =>
    let executionContext :=
      objMerge context
        [("connector", ex.connector),
         ("timestamp", .num (Int.ofNat now)),
         ("executionId",
           .str ("exec_" ++ toString now ++ "_" ++ rand))]
    let ex1 := { ex with events := ex.events ++ ["beforeExecution"] }
    match ex1.rateLimiter.check action with
    | .error e =>
        let execution : ExecutionRecord :=
          { agentId := ex.agent.id, action := action, timestamp := now,
            duration := 0, success := false, result := none,
            error := some e.message }
        { executor :=
            { ex1 with
              executionHistory := ex1.executionHistory ++ [execution],
              events := ex1.events ++ ["executionError"] }
          , invoked := []
          , result := .error e }
    | .ok _ =>
      match f executionContext with
      | .ok result =>
          let execution : ExecutionRecord :=
            { agentId := ex.agent.id, action := action, timestamp := now,
              duration := 0, success := true, result := some result,
              error := none }
          { executor :=
              { ex1 with
                executionHistory := ex1.executionHistory ++ [execution],
                events :=
                  ex1.events ++ ["afterExecution"] }
            , invoked := [(ex.agent.id, action)]
            , result := .ok result }
      | .error e =>
          let execution : ExecutionRecord :=
            { agentId := ex.agent.id, action := action, timestamp := now,
              duration := 0, success := false, result := none,
              error := some e.message }
          { executor :=
              { ex1 with
                executionHistory := ex1.executionHistory ++ [execution],
                events :=
                  ex1.events ++ ["executionError"] }
            , invoked := [(ex.agent.id, action)]
            , result := .error e }

/-- `arr.slice(-limit)` for a non-negative JS `limit`: `-0` is `0`, so
`limit = 0` takes the whole array; a positive `limit` starts at
`max(length - limit, 0)`. -/
def jsSliceNeg (l : List α) (limit : Nat) : List α :=
  if limit = 0 then l else l.drop (l.length - limit)

/-- `getExecutionHistory(limit = 10)`:
`this.executionHistory.slice(-limit).reverse()`. -/
def AgentExecutor.getExecutionHistory (ex : AgentExecutor)
    (limit : Nat := 10) : List ExecutionRecord :=
  (jsSliceNeg ex.executionHistory limit).reverse

/-
  ## Orchestrator (orchestration/orchestrator.js)

  `executeWorkflow` threads the memory manager (the only state it
  mutates) and additionally returns the invocation instrumentation
  collected from the per-step executors.  The `const workflowContext =
  (spread of context)` copy is the identity in a value model.  The
  LangChain field of the constructor is an external service handle the
  method never touches.
-/

structure Orchestrator where
  agents : List Agent
  memory : MemoryManager
  connector : Option JVal
  workflows : WorkflowRegistry

/-- The body of `executeWorkflow`'s `for (const step of workflow.steps)`
loop.  Per step: dereference the step object (a dangling reference would
make JS fault on `step.agentId`, modeled as a thrown TypeError); find the
agent by id or throw; run the action through a fresh `AgentExecutor`;
write the result into `context.results[step.id]` (installing `results`
when absent or falsy; a property write on a truthy primitive is a JS
no-op); abort — `break`, returning the context normally — when the step's
condition evaluates false; otherwise memorize the result under
`workflow:<name>:<step.id>` when `step.memorize` and continue. -/
def Orchestrator.runSteps (o : Orchestrator) (workflowName : String)
    (now : Nat) (rand : String) :
    List Nat → Obj → MemoryManager →
      MemoryManager × List (String × String) × Except JsErr Obj
  | [], ctx, mem => (mem, [], .ok ctx)
  | r :: rest, ctx, mem =>
    match o.workflows.heap.get? r with
    | none => (mem, [], .error ⟨"TypeError: step is undefined"⟩)
    | some step =>
      match o.agents.find? (fun a => a.id == step.agentId) with
      | none => (mem, [], .error ⟨"Agent not found: " ++ step.agentId⟩)
      | some agent =>
        let out :=
          (mkAgentExecutor agent o.connector).execute step.action ctx now
            rand
        match out.result with
        | .error e => (mem, out.invoked, .error e)
        | .ok result =>
          let ctx1 :=
            match objGet ctx "results" with
            | some (.obj kvs) =>
                assocSet ctx "results" (.obj (assocSet kvs step.id result))
            | some v =>
                if jsTruthy v then ctx
                else assocSet ctx "results" (.obj [(step.id, result)])
            | none => assocSet ctx "results" (.obj [(step.id, result)])
          if (match step.condition with
              | some c => !(c result ctx1)
              | none => false) then
            (mem, out.invoked, .ok ctx1)
          else
            let mem1 :=
              if step.memorize then
                (mem.store
                  ("workflow:" ++ workflowName ++ ":" ++ step.id) result
                  [("workflow", .str workflowName),
                   ("step", .str step.id)] now).1
              else mem
            let next := o.runSteps workflowName now rand rest ctx1 mem1
            (next.1, out.invoked ++ next.2.1, next.2.2)

/-- `executeWorkflow(workflowName, context = 
empty)`: resolves the workflow (throwing when absent) and runs its steps
in order on a copy of the initial context. -/
def Orchestrator.executeWorkflow (o : Orchestrator) (workflowName : String)
    (context : Obj) (now : Nat) (rand : String) :
    MemoryManager × List (String × String) × Except JsErr Obj :=
  match o.workflows.get workflowName with
  | none => (o.memory, [], .error ⟨"Workflow not found: " ++ workflowName⟩)
  | some workflow =>
      o.runSteps workflowName now rand workflow.steps context o.memory

/-
  ## Association-list lemmas
-/

theorem assocGet_assocSet_self (l : List (String × α)) (k : String)
    (v : α) : assocGet (assocSet l k v) k = some v := by
  induction l with
  | nil => simp [assocGet, assocSet]
  | cons p rest ih =>
    obtain ⟨k', v'⟩ := p
    by_cases h : k' == k
    · simp [assocSet, h, assocGet]
    · simp only [assocSet, h, if_false, Bool.false_eq_true]
      simpa [assocGet, h] using ih

theorem assocGet_assocSet_ne (l : List (String × α)) (k k' : String)
    (v : α) (h : k' ≠ k) :
    assocGet (assocSet l k v) k' = assocGet l k' := by
  induction l with
  | nil =>
    have hne : (k == k') = false := beq_eq_false_iff_ne.mpr (Ne.symm h)
    simp [assocGet, assocSet, List.find?, hne]
  | cons p rest ih =>
    obtain ⟨k'', v''⟩ := p
    by_cases hk : k'' == k
    · have : ¬ (k == k') := fun hc => h ((eq_of_beq hc)).symm
      simp [assocSet, hk, assocGet, List.find?, this]
      have hkk : ¬ (k'' == k') := by
        intro hc
        exact this (by rw [← eq_of_beq hk]; exact hc)
      simp [hkk]
    · by_cases hk2 : k'' == k'
      · simp [assocSet, hk, assocGet, List.find?, hk2]
      · simp only [assocSet, hk, if_false, Bool.false_eq_true]
        simp [assocGet, List.find?, hk2] at ih ⊢
        exact ih

/-
  ## C1 — MemoryStore.update and the record version
-/

def c1Mgr : MemoryManager := { ns := "socialos", client := [] }

/-- C1 (counterexample): store key "k", then update it.  The claim says the
updated record's `version` is one greater than the stored record's
`version`; in fact `store` sets `version: 1` unconditionally and `update`
re-stores, so both the returned and the persisted record carry
`version = 1`, not `2`. -/
theorem memoryStore_update_version_counterexample :
    ((c1Mgr.store "k" (.str "a") [] 0).2).version = 1 ∧
    (((c1Mgr.store "k" (.str "a") [] 0).1.update "k" (.str "b") [] 1).2).version
      = 1 ∧
    ¬ ((((c1Mgr.store "k" (.str "a") [] 0).1.update "k" (.str "b") [] 1).2).version
        = ((c1Mgr.store "k" (.str "a") [] 0).2).version + 1) ∧
    ((((c1Mgr.store "k" (.str "a") [] 0).1.update "k" (.str "b") [] 1).1.retrieve
        "k").map MemoryRecord.version) = some 1 := by
  refine ⟨rfl, rfl, ?_, rfl⟩
  decide

/-- C1 (amended): when the key is absent `update` behaves exactly as
`store`; when the key is present, `update` returns and persists a record
whose *top-level* `version` field is reset to 1 by `store`, while the
incremented version lands in `metadata.version`: absent (or falsy)
previous `metadata.version` yields 2, and a previous numeric
`metadata.version = n` (n nonzero) yields `n + 1` — monotone per key. -/
theorem memoryManager_update_metadata_version (m : MemoryManager)
    (key : String) (data : JVal) (metadata : Obj) (now : Nat) :
    (m.retrieve key = none →
      m.update key data metadata now = m.store key data metadata now) ∧
    (∀ existing, m.retrieve key = some existing →
      (m.update key data metadata now).2.version = 1 ∧
      (m.update key data metadata now).1.retrieve key
        = some (m.update key data metadata now).2 ∧
      (objGet existing.metadata "version" = none →
        objGet (m.update key data metadata now).2.metadata "version"
          = some (.num 2)) ∧
      (∀ n : Int, objGet existing.metadata "version" = some (.num n) →
        n ≠ 0 →
        objGet (m.update key data metadata now).2.metadata "version"
          = some (.num (n + 1)))) := by
  constructor
  · intro h
    simp [MemoryManager.update, h]
  · intro existing h
    have hstore : m.update key data metadata now
        = m.store key data
            (assocSet (objMerge existing.metadata metadata) "version"
              (jsAdd (jsOr (objGet existing.metadata "version") (.num 1))
                (.num 1))) now := by
      simp [MemoryManager.update, h]
    refine ⟨by rw [hstore]; rfl, ?_, ?_, ?_⟩
    · rw [hstore]
      simp [MemoryManager.store, MemoryManager.retrieve]
      exact assocGet_assocSet_self ..
    · intro hv
      rw [hstore]
      simp only [MemoryManager.store]
      rw [show objGet (assocSet (objMerge existing.metadata metadata)
            "version"
            (jsAdd (jsOr (objGet existing.metadata "version") (.num 1))
              (.num 1))) "version"
          = some (jsAdd (jsOr (objGet existing.metadata "version") (.num 1))
              (.num 1)) from assocGet_assocSet_self ..]
      rw [hv]
      simp [jsOr, jsAdd, jsIsStringy, jsToNumber]
    · intro n hv hn
      rw [hstore]
      simp only [MemoryManager.store]
      rw [show objGet (assocSet (objMerge existing.metadata metadata)
            "version"
            (jsAdd (jsOr (objGet existing.metadata "version") (.num 1))
              (.num 1))) "version"
          = some (jsAdd (jsOr (objGet existing.metadata "version") (.num 1))
              (.num 1)) from assocGet_assocSet_self ..]
      rw [hv]
      simp [jsOr, jsAdd, jsIsStringy, jsToNumber, jsTruthy, hn]

def c1Rec : MemoryRecord :=
  { key := "k", data := .str "a", metadata := [("version", .num 2)],
    timestamp := 0, version := 1, embedding := some () }

def c1Mgr2 : MemoryManager :=
  { ns := "socialos", client := [("socialos:k", c1Rec)] }

/-- C1 (witness): the amended theorem applied at a concrete store whose
record carries `metadata.version = 2`: the update keeps top-level
`version = 1` and bumps `metadata.version` to 3. -/
theorem memoryManager_update_metadata_version_witness :
    (c1Mgr2.update "k" (.str "b") [] 5).2.version = 1 ∧
    objGet (c1Mgr2.update "k" (.str "b") [] 5).2.metadata "version"
      = some (.num 3) := by
  have h :=
    (memoryManager_update_metadata_version c1Mgr2 "k" (.str "b") [] 5).2
      c1Rec (by rfl)
  exact ⟨h.1, by simpa using h.2.2.2 2 (by rfl) (by decide)⟩

/-
  ## C2 — WorkflowRegistry.clone and step sharing
-/

def c2Step : Step :=
  { id := "s0", agentId := "a0", action := "post", condition := none,
    memorize := false }

def c2WfA : Workflow :=
  { name := "a", steps := [0], createdAt := 0, updatedAt := none,
    clonedFrom := none }

def c2Reg : WorkflowRegistry :=
  { heap := [c2Step], workflows := [("a", c2WfA)] }

def c2WfB : Workflow :=
  { name := "b", steps := [0], createdAt := 1, updatedAt := none,
    clonedFrom := some "a" }

def c2RegCloned : WorkflowRegistry :=
  { heap := [c2Step], workflows := [("a", c2WfA), ("b", c2WfB)] }

def c2RegMutated : WorkflowRegistry :=
  c2RegCloned.writeStep 0 { c2Step with action := "like" }

/-- C2 (counterexample): register workflow "a" with one step, clone it to
"b", then mutate the `action` field of the step object reached through
"b"'s steps (heap reference 0, the only entry of `b.steps`).  The claim
says "a"'s steps never change; in fact `clone` spread-copies only the
array, the step object is shared, and "a"'s steps change from `post` to
`like`. -/
theorem clone_step_mutation_counterexample :
    c2Reg.clone "a" "b" 1 = .ok c2RegCloned ∧
    (c2RegCloned.get "b").map Workflow.steps = some [0] ∧
    c2RegCloned.stepActions "a" = some [some "post"] ∧
    c2RegMutated.stepActions "a" = some [some "like"] :=
  ⟨rfl, rfl, rfl, rfl⟩

/-- The definition `clone` writes for the target: `clonedFrom` tag and a
fresh array holding the source's step references. -/
def cloneTargetWf (source target : String) (ws : Workflow) (now : Nat) :
    Workflow :=
  { name := target, steps := ws.steps, createdAt := now,
    updatedAt := none, clonedFrom := some source }

/-- C2 (amended): `clone(a, b)` copies the steps *array* but not the step
objects: no step object is copied (the heap is unchanged), `b` is tagged
`clonedFrom: a` and holds the same step references as `a`, and mutating
`b`'s steps array never affects `a`'s definition — but mutating a field
of a shared step object is visible through `a` exactly as through `b`. -/
theorem clone_shallow_copy (reg reg' : WorkflowRegistry)
    (source target : String) (now : Nat) (ws : Workflow)
    (hclone : reg.clone source target now = .ok reg')
    (hsrc : reg.get source = some ws)
    (hne : source ≠ target) :
    reg'.heap = reg.heap ∧
    reg'.get source = some ws ∧
    reg'.get target = some (cloneTargetWf source target ws now) ∧
    (∀ steps', (reg'.setWorkflowSteps target steps').get source = some ws ∧
      (reg'.setWorkflowSteps target steps').stepActions source
        = reg'.stepActions source) ∧
    (∀ r s, ((reg'.writeStep r s).stepActions source)
        = ((reg'.writeStep r s).stepActions target)) := by
  have htgt : assocGet reg.workflows target = none := by
    cases hfind : reg.workflows.find? (fun p => p.1 == target) with
    | none => simp [assocGet, hfind]
    | some p =>
      exfalso
      have h1 : assocGet reg.workflows target = some p.2 := by
        simp [assocGet, hfind]
      simp only [WorkflowRegistry.clone] at hclone
      rw [hsrc] at hclone
      simp [h1] at hclone
  have hreg' : reg' =
      { reg with
        workflows :=
          assocSet reg.workflows target
            (cloneTargetWf source target ws now) } := by
    simp only [WorkflowRegistry.clone] at hclone
    rw [hsrc] at hclone
    simp only [htgt, Option.isSome_none, Bool.false_eq_true, if_false,
      cloneTargetWf] at hclone
    simpa [cloneTargetWf] using hclone.symm
  subst hreg'
  have hgs : assocGet (assocSet reg.workflows target
      (cloneTargetWf source target ws now)) source = some ws := by
    rw [assocGet_assocSet_ne _ _ _ _ hne]
    exact hsrc
  have hgt : assocGet (assocSet reg.workflows target
      (cloneTargetWf source target ws now)) target
      = some (cloneTargetWf source target ws now) :=
    assocGet_assocSet_self ..
  refine ⟨rfl, hgs, hgt, ?_, ?_⟩
  · intro steps'
    constructor
    · simp only [WorkflowRegistry.setWorkflowSteps, WorkflowRegistry.get,
        hgt]
      rw [assocGet_assocSet_ne _ _ _ _ hne]
      exact hgs
    · simp only [WorkflowRegistry.setWorkflowSteps,
        WorkflowRegistry.stepActions, WorkflowRegistry.get, hgt]
      rw [assocGet_assocSet_ne _ _ _ _ hne]
  · intro r s
    simp only [WorkflowRegistry.writeStep, WorkflowRegistry.stepActions,
      WorkflowRegistry.get]
    rw [hgs, hgt]
    simp [cloneTargetWf]

/-- C2 (witness): the amended theorem applied to the concrete one-step
registry: the clone shares the heap, "b" carries the source's step
references tagged `clonedFrom: "a"`, and replacing "b"'s steps array
leaves "a" untouched. -/
theorem clone_shallow_copy_witness :
    c2RegCloned.heap = c2Reg.heap ∧
    c2RegCloned.get "b" = some (cloneTargetWf "a" "b" c2WfA 1) ∧
    (c2RegCloned.setWorkflowSteps "b" []).get "a" = some c2WfA := by
  have h := clone_shallow_copy c2Reg c2RegCloned "a" "b" 1 c2WfA rfl rfl
    (by decide)
  exact ⟨h.1, h.2.2.1, (h.2.2.2.1 []).1⟩

/-
  ## C3 — registerConnector and create
-/

/-- C3 (code evaluated at the failing input): `registerConnector` performs
the claimed validation — a non-string platform or a non-function class is
rejected, a valid pair is stored in the registry — but a subsequent
`create("myplatform", ...)` returns a `GenericConnector`: `create` is a
plain switch over the built-in platform identifiers and never consults
`PlatformConnectorFactory.connectorRegistry`, so the registered factory
is never used. -/
theorem registerConnector_create_ignores_registry :
    PlatformConnectorFactory.registerConnector [] (.str "myplatform")
        (.fn ⟨"MyConnector"⟩)
      = .ok [("myplatform", ⟨"MyConnector"⟩)] ∧
    PlatformConnectorFactory.create "myplatform" (.obj [])
      = .genericConnector (.obj []) ∧
    PlatformConnectorFactory.registerConnector [] (.num 5)
        (.fn ⟨"MyConnector"⟩)
      = .error ⟨"Platform must be a valid string"⟩ ∧
    PlatformConnectorFactory.registerConnector [] (.str "myplatform")
        (.notFun .null)
      = .error ⟨"ConnectorClass must be a valid constructor"⟩ :=
  ⟨rfl, rfl, rfl, rfl⟩

/-
  ## C6 — multi-platform fan-out failure isolation
-/

/-- C6: fan-out over platforms `[A, B]`.  When `A`'s connector member for
`action` throws and `B`'s succeeds, the result map holds an entry for both
targeted platforms: a caught-error object for `A` and `B`'s success value.
Likewise when `A`'s connector lacks the action altogether (the
`not supported` entry).  One platform's failure never removes or corrupts
the other's outcome. -/
theorem executeAction_failure_isolation
    (A B : String) (ca caNo cb : MPConnector)
    (fa fb : JVal → Except JsErr JVal) (action : String) (params : JVal)
    (e : JsErr) (v : JVal)
    (hAB : A ≠ B)
    (ha : assocGet ca.members action = some fa)
    (hae : fa params = .error e)
    (hno : assocGet caNo.members action = none)
    (hb : assocGet cb.members action = some fb)
    (hbv : fb params = .ok v) :
    MultiPlatform.executeAction [(A, ca), (B, cb)] action params none
      = [(A, .obj [("error", .str e.message)]), (B, v)] ∧
    MultiPlatform.executeAction [(A, caNo), (B, cb)] action params none
      = [(A, .obj [("error", .str ("Action " ++ action ++
          " not supported on " ++ A))]), (B, v)] := by
  have hab : (A == B) = false := beq_eq_false_iff_ne.mpr hAB
  have hga : ∀ c c' : MPConnector,
      assocGet [(A, c), (B, c')] A = some c := by
    intro c c'
    simp [assocGet, List.find?]
  have hgb : ∀ c c' : MPConnector,
      assocGet [(A, c), (B, c')] B = some c' := by
    intro c c'
    simp [assocGet, List.find?, hab]
  have hset : ∀ x y : JVal, assocSet [(A, x)] B y = [(A, x), (B, y)] := by
    intro x y
    simp [assocSet, hab]
  constructor
  · simp only [MultiPlatform.executeAction, Option.getD, List.map,
      List.foldl, hga, hgb, ha, hae, hb, hbv]
    rw [show (assocSet ([] : Obj) A (.obj [("error", .str e.message)]))
        = [(A, .obj [("error", .str e.message)])] from rfl]
    exact hset _ _
  · simp only [MultiPlatform.executeAction, Option.getD, List.map,
      List.foldl, hga, hgb, hno, hb, hbv]
    rw [show (assocSet ([] : Obj) A
          (.obj [("error", .str ("Action " ++ action ++
            " not supported on " ++ A))]))
        = [(A, .obj [("error", .str ("Action " ++ action ++
            " not supported on " ++ A))])] from rfl]
    exact hset _ _

def c6Fail : MPConnector :=
  { members := [("post", fun _ => .error ⟨"boom"⟩)] }

def c6Ok : MPConnector :=
  { members := [("post", fun _ => .ok (.str "posted"))] }

def c6None : MPConnector := { members := [] }

/-- C6 (witness): the isolation theorem at a concrete two-platform facade:
platform "x" throws (or lacks the action), platform "linkedin" succeeds,
and both entries appear in the result map. -/
theorem executeAction_failure_isolation_witness :
    MultiPlatform.executeAction [("x", c6Fail), ("linkedin", c6Ok)] "post"
        .null none
      = [("x", .obj [("error", .str "boom")]),
         ("linkedin", .str "posted")] ∧
    MultiPlatform.executeAction [("x", c6None), ("linkedin", c6Ok)] "post"
        .null none
      = [("x", .obj [("error", .str "Action post not supported on x")]),
         ("linkedin", .str "posted")] := by
  have h := executeAction_failure_isolation "x" "linkedin" c6Fail c6None
    c6Ok (fun _ => .error ⟨"boom"⟩) (fun _ => .ok (.str "posted"))
    "post" .null ⟨"boom"⟩ (.str "posted") (by decide) rfl rfl rfl rfl rfl
  exact ⟨h.1, h.2⟩

/-
  ## C8 — execute on a missing action
-/

/-- C8: when the agent has no callable member named `action`,
`execute` throws `Action <action> not implemented by agent <id>` before
any event or history write: the executor is returned unchanged, nothing
is invoked, and in particular the execution history gains no
`success: true` record. -/
theorem execute_missing_action (ex : AgentExecutor) (action : String)
    (context : Obj) (now : Nat) (rand : String)
    (h : assocGet ex.agent.actions action = none) :
    ex.execute action context now rand
      = { executor := ex, invoked := [],
          result := .error ⟨"Action " ++ action ++
            " not implemented by agent " ++ ex.agent.id⟩ } ∧
    (ex.execute action context now rand).executor.executionHistory
      = ex.executionHistory := by
  have h1 : ex.execute action context now rand
      = { executor := ex, invoked := [],
          result := .error ⟨"Action " ++ action ++
            " not implemented by agent " ++ ex.agent.id⟩ } := by
    simp [AgentExecutor.execute, h]
  exact ⟨h1, by rw [h1]⟩

def c8Agent : Agent :=
  { id := "a1", platform := "x", actions := [],
    rateLimits := fun _ => .ok () }

def c8Ex : AgentExecutor := mkAgentExecutor c8Agent none

/-- C8 (witness): a concrete executor over an agent with no actions:
`execute "speak"` fails with the ActionNotImplemented error and the
(empty) history is unchanged. -/
theorem execute_missing_action_witness :
    c8Ex.execute "speak" [] 0 "r"
      = { executor := c8Ex, invoked := [],
          result := .error
            ⟨"Action speak not implemented by agent a1"⟩ } ∧
    (c8Ex.execute "speak" [] 0 "r").executor.executionHistory = [] :=
  (execute_missing_action c8Ex "speak" [] 0 "r" rfl)

/-
  ## C10 — getExecutionHistory limits
-/

/-- C10: for a non-empty history, `getExecutionHistory 0` is the *entire*
history most-recent-first (never the empty list): `slice(-0)` is
`slice(0)`, the whole array.  For every positive limit the result is the
most recent `limit` records, most-recent-first — at most `limit`
entries. -/
theorem getExecutionHistory_zero_and_positive (ex : AgentExecutor)
    (h : ex.executionHistory ≠ []) :
    ex.getExecutionHistory 0 = ex.executionHistory.reverse ∧
    ex.getExecutionHistory 0 ≠ [] ∧
    (∀ limit : Nat, 0 < limit →
      ex.getExecutionHistory limit
        = ex.executionHistory.reverse.take limit ∧
      (ex.getExecutionHistory limit).length ≤ limit) := by
  refine ⟨by simp [AgentExecutor.getExecutionHistory, jsSliceNeg], ?_, ?_⟩
  · simp [AgentExecutor.getExecutionHistory, jsSliceNeg, h]
  · intro limit hl
    have hne : ¬ (limit = 0) := Nat.pos_iff_ne_zero.mp hl
    have heq : ex.getExecutionHistory limit
        = ex.executionHistory.reverse.take limit := by
      rw [AgentExecutor.getExecutionHistory, jsSliceNeg, if_neg hne]
      rw [show ex.executionHistory.drop
            (ex.executionHistory.length - limit)
          = ex.executionHistory.rtake limit from rfl]
      rw [List.rtake_eq_reverse_take_reverse, List.reverse_reverse]
    refine ⟨heq, ?_⟩
    rw [heq]
    simp [List.length_take]

def c10Rec1 : ExecutionRecord :=
  { agentId := "a1", action := "post", timestamp := 1, duration := 0,
    success := true, result := some (.str "r1"), error := none }

def c10Rec2 : ExecutionRecord :=
  { agentId := "a1", action := "reply", timestamp := 2, duration := 0,
    success := false, result := none, error := some "boom" }

def c10Ex : AgentExecutor :=
  { agent := c8Agent, connector := .null,
    rateLimiter := mkRateLimiter "x" (fun _ => .ok ()),
    executionHistory := [c10Rec1, c10Rec2], events := [] }

/-- C10 (witness): an executor with a two-record history: limit 0 yields
both records most-recent-first, limit 1 yields exactly the most recent
record. -/
theorem getExecutionHistory_zero_and_positive_witness :
    c10Ex.getExecutionHistory 0 = [c10Rec2, c10Rec1] ∧
    c10Ex.getExecutionHistory 1 = [c10Rec2] := by
  have h := getExecutionHistory_zero_and_positive c10Ex (by
    simp [c10Ex])
  refine ⟨by rw [h.1]; rfl, ?_⟩
  have h2 := (h.2.2 1 (by decide)).1
  rw [h2]
  rfl

/-
  ## Orchestrator claims
-/

/-- Helper: a successful `execute` through a fresh per-step executor —
the agent has the action, the rate limiter passes, and the action
returns `v` on every context — yields `.ok v` and invokes exactly that
agent action once. -/
theorem execute_ok (a : Agent) (conn : Option JVal) (action : String)
    (ctx : Obj) (now : Nat) (rand : String)
    (f : Obj → Except JsErr JVal) (v : JVal)
    (hf : assocGet a.actions action = some f)
    (hrl : a.rateLimits action = .ok ())
    (hv : ∀ c, f c = .ok v) :
    ((mkAgentExecutor a conn).execute action ctx now rand).result
        = .ok v ∧
    ((mkAgentExecutor a conn).execute action ctx now rand).invoked
        = [(a.id, action)] := by
  simp [AgentExecutor.execute, mkAgentExecutor, mkRateLimiter, hf, hrl, hv]

def c5Agent : Agent :=
  { id := "a1", platform := "x",
    actions := [("speak", fun _ => .ok (.str "hi"))],
    rateLimits := fun _ => .ok () }

def c5Step : Step :=
  { id := "s1", agentId := "a1", action := "speak", condition := none,
    memorize := true }

def c5Orch : Orchestrator :=
  { agents := [c5Agent],
    memory := { ns := "socialos", client := [] },
    connector := none,
    workflows :=
      { heap := [c5Step],
        workflows := [("greet",
          { name := "greet", steps := [0], createdAt := 0,
            updatedAt := none, clonedFrom := none })] } }

/-- C5: workflow "greet" with the single memorized step
`s1 = (a1, speak)` where `a1.speak` returns "hi": `executeWorkflow`
returns a context with `results.s1 = "hi"`, and the memory store holds a
record for `workflow:greet:s1` whose data is "hi" (with the
`workflow`/`step` metadata the orchestrator attaches). -/
theorem executeWorkflow_greet_scenario :
    (c5Orch.executeWorkflow "greet" [] 7 "r").2.2
      = .ok [("results", .obj [("s1", .str "hi")])] ∧
    ((c5Orch.executeWorkflow "greet" [] 7 "r").1.retrieve
        "workflow:greet:s1").map MemoryRecord.data = some (.str "hi") ∧
    ((c5Orch.executeWorkflow "greet" [] 7 "r").1.retrieve
        "workflow:greet:s1").map MemoryRecord.metadata
      = some [("workflow", .str "greet"), ("step", .str "s1")] :=
  ⟨rfl, rfl, rfl⟩

/-- C9: a step declaring both `memorize: true` and a condition that
evaluates false on its (successful) result.  The abort check precedes the
memorize block, so the run returns the context holding the step's result
— the action did run — but the memory manager is returned exactly as it
was: nothing is persisted, and in particular
`workflow:<name>:<step.id>` remains exactly as before the run. -/
theorem executeWorkflow_abort_skips_memorize
    (o : Orchestrator) (name : String) (wf : Workflow) (r : Nat)
    (s : Step) (a : Agent) (f : Obj → Except JsErr JVal) (v : JVal)
    (c : JVal → Obj → Bool) (now : Nat) (rand : String)
    (hwf : o.workflows.get name = some wf)
    (hsteps : wf.steps = [r])
    (hr : o.workflows.heap.get? r = some s)
    (ha : o.agents.find? (fun x => x.id == s.agentId) = some a)
    (hf : assocGet a.actions s.action = some f)
    (hrl : a.rateLimits s.action = .ok ())
    (hv : ∀ ctx, f ctx = .ok v)
    (_hmem : s.memorize = true)
    (hcond : s.condition = some c)
    (hfalse : c v [("results", .obj [(s.id, v)])] = false) :
    o.executeWorkflow name [] now rand
      = (o.memory, [(a.id, s.action)],
          .ok [("results", .obj [(s.id, v)])]) ∧
    (o.executeWorkflow name [] now rand).1.retrieve
        ("workflow:" ++ name ++ ":" ++ s.id)
      = o.memory.retrieve ("workflow:" ++ name ++ ":" ++ s.id) := by
  have hex := execute_ok a o.connector s.action [] now rand f v hf hrl hv
  have hmain : o.executeWorkflow name [] now rand
      = (o.memory, [(a.id, s.action)],
          .ok [("results", .obj [(s.id, v)])]) := by
    simp only [Orchestrator.executeWorkflow, hwf, Orchestrator.runSteps,
      hsteps, hr, ha, hex.1, hex.2, hcond, objGet, assocGet, List.find?,
      Option.map, assocSet, hfalse, Bool.not_false, if_true]
  exact ⟨hmain, by rw [hmain]⟩

def c9Agent : Agent :=
  { id := "a9", platform := "x",
    actions := [("check", fun _ => .ok (.num 0))],
    rateLimits := fun _ => .ok () }

def c9Step : Step :=
  { id := "s9", agentId := "a9", action := "check",
    condition := some (fun _ _ => false), memorize := true }

def c9Orch : Orchestrator :=
  { agents := [c9Agent], memory := { ns := "socialos", client := [] },
    connector := none,
    workflows :=
      { heap := [c9Step],
        workflows := [("audit",
          { name := "audit", steps := [0], createdAt := 0,
            updatedAt := none, clonedFrom := none })] } }

/-- C9 (witness): a concrete memorized step whose condition is constantly
false: the run returns the context holding the result, yet
`workflow:audit:s9` is absent from memory. -/
theorem executeWorkflow_abort_skips_memorize_witness :
    c9Orch.executeWorkflow "audit" [] 3 "r"
      = (c9Orch.memory, [("a9", "check")],
          .ok [("results", .obj [("s9", .num 0)])]) ∧
    (c9Orch.executeWorkflow "audit" [] 3 "r").1.retrieve
        "workflow:audit:s9" = none := by
  have h := executeWorkflow_abort_skips_memorize c9Orch "audit" _ 0
    c9Step c9Agent _ (.num 0) (fun _ _ => false) 3 "r" rfl rfl rfl rfl
    rfl rfl (fun _ => rfl) rfl rfl rfl
  exact ⟨h.1, by rw [h.1]; rfl⟩

/-- C4: a 3-step workflow whose first two steps execute successfully
(the first step's condition, if any, passes on its result) and whose
second step's condition evaluates false.  `executeWorkflow` returns
normally — no error — with a context whose `results` holds exactly step
1's and step 2's entries (step ids distinct) and nothing under step 3's
id; the invocation instrumentation shows exactly steps 1 and 2 were
invoked, never step 3's action. -/
theorem executeWorkflow_conditional_abort
    (o : Orchestrator) (name : String) (wf : Workflow)
    (r1 r2 r3 : Nat) (s1 s2 s3 : Step) (a1 a2 : Agent)
    (f1 f2 : Obj → Except JsErr JVal) (v1 v2 : JVal)
    (cond2 : JVal → Obj → Bool) (now : Nat) (rand : String)
    (hwf : o.workflows.get name = some wf)
    (hsteps : wf.steps = [r1, r2, r3])
    (h1 : o.workflows.heap.get? r1 = some s1)
    (h2 : o.workflows.heap.get? r2 = some s2)
    (_h3 : o.workflows.heap.get? r3 = some s3)
    (ha1 : o.agents.find? (fun a => a.id == s1.agentId) = some a1)
    (ha2 : o.agents.find? (fun a => a.id == s2.agentId) = some a2)
    (hf1 : assocGet a1.actions s1.action = some f1)
    (hrl1 : a1.rateLimits s1.action = .ok ())
    (hv1 : ∀ c, f1 c = .ok v1)
    (hf2 : assocGet a2.actions s2.action = some f2)
    (hrl2 : a2.rateLimits s2.action = .ok ())
    (hv2 : ∀ c, f2 c = .ok v2)
    (hc1 : ∀ c, s1.condition = some c →
      c v1 [("results", .obj [(s1.id, v1)])] = true)
    (hcond2 : s2.condition = some cond2)
    (hfalse : cond2 v2 [("results", .obj [(s1.id, v1), (s2.id, v2)])]
      = false)
    (hid12 : s1.id ≠ s2.id) (hid31 : s3.id ≠ s1.id)
    (hid32 : s3.id ≠ s2.id) :
    (o.executeWorkflow name [] now rand).2
      = ([(a1.id, s1.action), (a2.id, s2.action)],
          .ok [("results", .obj [(s1.id, v1), (s2.id, v2)])]) ∧
    objGet [(s1.id, v1), (s2.id, v2)] s3.id = none := by
  have e12 : (s1.id == s2.id) = false := beq_eq_false_iff_ne.mpr hid12
  have e13 : (s1.id == s3.id) = false :=
    beq_eq_false_iff_ne.mpr (Ne.symm hid31)
  have e23 : (s2.id == s3.id) = false :=
    beq_eq_false_iff_ne.mpr (Ne.symm hid32)
  have hex1 := execute_ok a1 o.connector s1.action [] now rand f1 v1
    hf1 hrl1 hv1
  have hex2 := execute_ok a2 o.connector s2.action
    [("results", .obj [(s1.id, v1)])] now rand f2 v2 hf2 hrl2 hv2
  constructor
  · simp only [Orchestrator.executeWorkflow, hwf, hsteps,
      Orchestrator.runSteps, h1, ha1, hex1.1, hex1.2, objGet, assocGet,
      List.find?, Option.map, assocSet]
    cases hs1 : s1.condition with
    | some c =>
      simp only [hs1, hc1 c hs1, Bool.not_true, Bool.false_eq_true,
        if_false, Orchestrator.runSteps, h2, ha2, hex2.1, hex2.2, objGet,
        assocGet, List.find?, Option.map, assocSet, beq_self_eq_true,
        if_true, e12, hcond2, hfalse, Bool.not_false]
      rfl
    | none =>
      simp only [hs1, Bool.false_eq_true, if_false,
        Orchestrator.runSteps, h2, ha2, hex2.1, hex2.2, objGet, assocGet,
        List.find?, Option.map, assocSet, beq_self_eq_true, if_true, e12,
        hcond2, hfalse, Bool.not_false]
      rfl
  · simp [objGet, assocGet, List.find?, e13, e23]

def c4Agent1 : Agent :=
  { id := "a1", platform := "x",
    actions := [("fetch", fun _ => .ok (.str "one"))],
    rateLimits := fun _ => .ok () }

def c4Agent2 : Agent :=
  { id := "a2", platform := "x",
    actions := [("screen", fun _ => .ok (.str "two"))],
    rateLimits := fun _ => .ok () }

def c4Agent3 : Agent :=
  { id := "a3", platform := "x",
    actions := [("publish", fun _ => .ok (.str "three"))],
    rateLimits := fun _ => .ok () }

def c4Step1 : Step :=
  { id := "s1", agentId := "a1", action := "fetch", condition := none,
    memorize := false }

def c4Step2 : Step :=
  { id := "s2", agentId := "a2", action := "screen",
    condition := some (fun _ _ => false), memorize := false }

def c4Step3 : Step :=
  { id := "s3", agentId := "a3", action := "publish", condition := none,
    memorize := false }

def c4Orch : Orchestrator :=
  { agents := [c4Agent1, c4Agent2, c4Agent3],
    memory := { ns := "socialos", client := [] },
    connector := none,
    workflows :=
      { heap := [c4Step1, c4Step2, c4Step3],
        workflows := [("pipeline",
          { name := "pipeline", steps := [0, 1, 2], createdAt := 0,
            updatedAt := none, clonedFrom := none })] } }

/-- C4 (witness): the conditional-abort theorem at a concrete 3-step
workflow whose second step's condition is constantly false: the run
returns normally with results for s1 and s2 only, and only steps 1 and 2
were invoked. -/
theorem executeWorkflow_conditional_abort_witness :
    (c4Orch.executeWorkflow "pipeline" [] 4 "r").2
      = ([("a1", "fetch"), ("a2", "screen")],
          .ok [("results",
            .obj [("s1", .str "one"), ("s2", .str "two")])]) ∧
    objGet [("s1", .str "one"), ("s2", .str "two")] "s3" = none :=
  executeWorkflow_conditional_abort c4Orch "pipeline" _ 0 1 2
    c4Step1 c4Step2 c4Step3 c4Agent1 c4Agent2 _ _ (.str "one")
    (.str "two") (fun _ _ => false) 4 "r" rfl rfl rfl rfl rfl rfl rfl
    rfl rfl (fun _ => rfl) rfl rfl (fun _ => rfl)
    (fun _ hc => Option.noConfusion hc) rfl rfl (by decide) (by decide)
    (by decide)

/-
  ## C7 — VectorMemory.delete and the similarity search space
-/

def c7VM : VectorMemory :=
  { memoryManager := { ns := "socialos-vector", client := [] },
    vectorStore := [], initialized := false }

/-- C7: store five similarity-indexed records k1..k5 (arbitrary data),
then `delete "k3"`.  The rebuilt similarity search space — the documents
of the vector store, from which every `similaritySearch` result is drawn
— holds exactly the 4 remaining records, in order, and none of them is
the deleted key; the key-value store no longer resolves "k3" (consistent
removal from both).  Before the delete the store held 6 documents: the 5
records plus the initialization document, which the rebuild also
discards. -/
theorem vectorMemory_delete_search_space (d1 d2 d3 d4 d5 : JVal) :
    (((((((c7VM.store "k1" d1 [] 1).1.store "k2" d2 [] 2).1.store
        "k3" d3 [] 3).1.store "k4" d4 [] 4).1.store "k5" d5 [] 5).1.delete
        "k3").vectorStore.map (fun doc => objGet doc.metadata "key"))
      = [some (.str "k1"), some (.str "k2"), some (.str "k4"),
         some (.str "k5")] ∧
    ((((((c7VM.store "k1" d1 [] 1).1.store "k2" d2 [] 2).1.store
        "k3" d3 [] 3).1.store "k4" d4 [] 4).1.store "k5" d5 [] 5).1.delete
        "k3").vectorStore.length = 4 ∧
    ((((((c7VM.store "k1" d1 [] 1).1.store "k2" d2 [] 2).1.store
        "k3" d3 [] 3).1.store "k4" d4 [] 4).1.store "k5" d5 [] 5).1.delete
        "k3").memoryManager.retrieve "k3" = none ∧
    (((((((c7VM.store "k1" d1 [] 1).1.store "k2" d2 [] 2).1.store
        "k3" d3 [] 3).1.store "k4" d4 [] 4).1.store "k5" d5
        [] 5).1.memoryManager.retrieve "k3").map MemoryRecord.key)
      = some "k3" ∧
    (((((c7VM.store "k1" d1 [] 1).1.store "k2" d2 [] 2).1.store
        "k3" d3 [] 3).1.store "k4" d4 [] 4).1.store "k5" d5
        [] 5).1.vectorStore.length = 6 :=
  ⟨rfl, rfl, rfl, rfl, rfl⟩
